import Mathlib

/-!
Verification development for the marker clustering engine of
`src/markerclusterer.ts`: a shallow embedding of its data model and
operations, together with theorems settling the specification claims.

Modelling conventions:
* Geographic coordinates and pixel coordinates are exact rationals
  (the source stores IEEE doubles; all claims checked here are about
  the algebraic structure of the computations).
* Marker objects are externally owned, mutable and aliased between the
  engine and the clusters; they are modelled by a store mapping a
  marker identity (a natural number) to its state, so a mutation made
  through a cluster is visible to the engine and vice versa.
* `marker.setMap(map)` / `marker.setMap(null)` toggle the `onMap` flag.
* The host map projection (`fromLatLngToDivPixel` / `fromDivPixelToLatLng`)
  is an external collaborator and enters the model as the `proj` / `unproj`
  fields of the environment `Cfg`.
* `google.maps.LatLngBounds` is modelled as a non-wrapping rectangle.
-/

namespace MC

/-- Geographic point (`google.maps.LatLng`): lat/lng in degrees. -/
structure LatLng where
  lat : ℚ
  lng : ℚ
deriving DecidableEq

/-- Pixel-space point (`google.maps.Point`). -/
structure Point where
  x : ℚ
  y : ℚ
deriving DecidableEq

/-- Geographic rectangle (`google.maps.LatLngBounds`), non-wrapping model. -/
structure LatLngBounds where
  sw : LatLng
  ne : LatLng
deriving DecidableEq

/-- `LatLngBounds.extend`: grow the rectangle to contain the point. -/
def LatLngBounds.extend (b : LatLngBounds) (p : LatLng) : LatLngBounds :=
  ⟨⟨min b.sw.lat p.lat, min b.sw.lng p.lng⟩, ⟨max b.ne.lat p.lat, max b.ne.lng p.lng⟩⟩

/-- `LatLngBounds.contains`: containment test. -/
def LatLngBounds.contains (b : LatLngBounds) (p : LatLng) : Bool :=
  decide (b.sw.lat ≤ p.lat ∧ p.lat ≤ b.ne.lat ∧ b.sw.lng ≤ p.lng ∧ p.lng ≤ b.ne.lng)

/-- The state of one externally owned marker (`ClusterMarker`): its position,
its `isAdded` flag, and whether it is currently attached to the map
(`marker.getMap() == map`, toggled by `setMap`). -/
structure MarkerState where
  pos : LatLng
  isAdded : Bool
  onMap : Bool
deriving DecidableEq

/-- The shared heap of marker objects, indexed by marker identity. -/
def Store : Type := ℕ → MarkerState

/-- `marker.isAdded = b` for the marker with identity `mid`. -/
def Store.setIsAdded (st : Store) (mid : ℕ) (b : Bool) : Store :=
  fun j => if j = mid then { st j with isAdded := b } else st j

/-- `marker.setMap(map)` (`b = true`) or `marker.setMap(null)` (`b = false`). -/
def Store.setOnMap (st : Store) (mid : ℕ) (b : Bool) : Store :=
  fun j => if j = mid then { st j with onMap := b } else st j

/-- The `Sum` interface: cluster summary text and style index.  The default
calculator and every claim use a numeric `text`, so it is modelled as `ℕ`. -/
structure Sum where
  text : ℕ
  index : ℕ
deriving DecidableEq

/-- The environment a cluster and the engine read from: the clusterer's
option fields, the pluggable summary calculator, the host map's projection,
current zoom and current viewport bounds. -/
structure Cfg where
  gridSize : ℚ
  minClusterSize : ℕ
  maxZoom : Option ℤ
  averageCenter : Bool
  zoom : ℤ
  numStyles : ℕ
  sumCalculatorFunc : List ℕ → ℕ → Sum
  proj : LatLng → Point
  unproj : Point → LatLng
  mapBounds : LatLngBounds

/-- `MarkerClusterer.getExtendedBounds`: convert the bounds' corners to
pixel space, pad them by the grid size, convert back and extend. -/
def getExtendedBounds (cfg : Cfg) (b : LatLngBounds) : LatLngBounds :=
  let tr := LatLng.mk b.ne.lat b.ne.lng
  let bl := LatLng.mk b.sw.lat b.sw.lng
  let trPix0 := cfg.proj tr
  let trPix := Point.mk (trPix0.x + cfg.gridSize) (trPix0.y - cfg.gridSize)
  let blPix0 := cfg.proj bl
  let blPix := Point.mk (blPix0.x - cfg.gridSize) (blPix0.y + cfg.gridSize)
  let ne := cfg.unproj trPix
  let sw := cfg.unproj blPix
  (b.extend ne).extend sw

/-- State of a `ClusterIcon`: visibility of the aggregate icon, whether the
overlay is attached to the map, and the last centre/summary pushed to it. -/
structure ClusterIcon where
  visible : Bool
  onMap : Bool
  center : Option LatLng
  sum : Option Sum
deriving DecidableEq

/-- `ClusterIcon.hide`. -/
def ClusterIcon.hide (ic : ClusterIcon) : ClusterIcon :=
  { ic with visible := false }

/-- `ClusterIcon.show` (named `showIcon` because `show` is a Lean keyword). -/
def ClusterIcon.showIcon (ic : ClusterIcon) : ClusterIcon :=
  { ic with visible := true }

/-- `ClusterIcon.setSum`. -/
def ClusterIcon.setSum (ic : ClusterIcon) (s : Sum) : ClusterIcon :=
  { ic with sum := some s }

/-- `ClusterIcon.setCenter`. -/
def ClusterIcon.setCenter (ic : ClusterIcon) (c : Option LatLng) : ClusterIcon :=
  { ic with center := c }

/-- `ClusterIcon.remove`: `setMap(null)`, whose `onRemove` hides the icon. -/
def ClusterIcon.remove (ic : ClusterIcon) : ClusterIcon :=
  { ic with onMap := false, visible := false }

/-- A fresh `ClusterIcon` as built by the `Cluster` constructor:
invisible, attached to the map. -/
def ClusterIcon.init : ClusterIcon :=
  ⟨false, true, none, none⟩

/-- A `Cluster`.  `removed = true` models `markers_ = null` (the state after
`remove()`); `markers` is only meaningful while `removed = false`.
`minClusterSize` and `averageCenter` are copied from the clusterer at
construction, as in the source constructor. -/
structure Cluster where
  minClusterSize : ℕ
  averageCenter : Bool
  center : Option LatLng
  markers : List ℕ
  removed : Bool
  bounds : Option LatLngBounds
  icon : ClusterIcon
deriving DecidableEq

/-- `new Cluster(markerClusterer)`. -/
def Cluster.new (cfg : Cfg) : Cluster :=
  ⟨cfg.minClusterSize, cfg.averageCenter, none, [], false, none, ClusterIcon.init⟩

/-- `Cluster.isMarkerAlreadyAdded`: identity membership test (`indexOf`). -/
def Cluster.isMarkerAlreadyAdded (cl : Cluster) (mid : ℕ) : Bool :=
  decide (mid ∈ cl.markers)

/-- `Cluster.calculateBounds_`: pad a degenerate rectangle at the centre by
the grid size.  The source builds `new LatLngBounds(center_, center_)`;
call sites pass the (non-null) centre explicitly. -/
def Cluster.calculateBounds (cfg : Cfg) (p : LatLng) : LatLngBounds :=
  getExtendedBounds cfg ⟨p, p⟩

/-- `Cluster.isMarkerInClusterBounds`: `bounds_.contains(position)`.  The
source only invokes this on clusters whose bounds have been computed. -/
def Cluster.isMarkerInClusterBounds (cl : Cluster) (p : LatLng) : Bool :=
  match cl.bounds with
  | some b => b.contains p
  | none => false

/-- The tail of `Cluster.updateIcon` past the max-zoom check: hide the icon
below the minimum size, otherwise compute the summary and show the icon at
the cluster centre. -/
def Cluster.updateIconRest (cfg : Cfg) (cl : Cluster) (st : Store) : Cluster × Store :=
  if cl.markers.length < cl.minClusterSize then
    ({ cl with icon := cl.icon.hide }, st)
  else
    let s := cfg.sumCalculatorFunc cl.markers cfg.numStyles
    ({ cl with icon := ((cl.icon.setCenter cl.center).setSum s).showIcon }, st)

/-- `Cluster.updateIcon`.  `if (mz && zoom > mz)` — a `null` max zoom is
falsy, so the check only fires when a max zoom is configured (the source
constructor also coerces a `0` option to `null`). -/
def Cluster.updateIcon (cfg : Cfg) (cl : Cluster) (st : Store) : Cluster × Store :=
  match cfg.maxZoom with
  | some mz =>
    if cfg.zoom > mz then
      (cl, cl.markers.foldl (fun s j => s.setOnMap j true) st)
    else
      Cluster.updateIconRest cfg cl st
  | none => Cluster.updateIconRest cfg cl st

/-- The visibility policy block of `Cluster.addMarker` (the three `if`
statements following the push), factored out so its effect on the marker
heap can be analysed once: show the new marker below the minimum size, hide
every member when the minimum size is reached exactly, hide the new marker
at or above the minimum size. -/
def Cluster.addMarkerVisibility (minSize : ℕ) (members : List ℕ) (mid : ℕ)
    (st : Store) : Store :=
  let len := members.length
  let st2 := if len < minSize ∧ (st mid).onMap = false then st.setOnMap mid true else st
  let st3 := if len = minSize then
               members.foldl (fun s j => s.setOnMap j false) st2 else st2
  if minSize ≤ len then st3.setOnMap mid false else st3

/-- `Cluster.addMarker`. -/
def Cluster.addMarker (cfg : Cfg) (cl : Cluster) (mid : ℕ) (st : Store) :
    Bool × Cluster × Store :=
  if cl.isMarkerAlreadyAdded mid then (false, cl, st)
  else
    let pos := (st mid).pos
    let cl1 : Cluster :=
      match cl.center with
      | none =>
        { cl with center := some pos, bounds := some (Cluster.calculateBounds cfg pos) }
      | some ctr =>
        if cl.averageCenter then
          let l : ℚ := (cl.markers.length : ℚ) + 1
          let la := (ctr.lat * (l - 1) + pos.lat) / l
          let ln := (ctr.lng * (l - 1) + pos.lng) / l
          { cl with center := some ⟨la, ln⟩,
                    bounds := some (Cluster.calculateBounds cfg ⟨la, ln⟩) }
        else cl
    let st1 := st.setIsAdded mid true
    let cl2 := { cl1 with markers := cl1.markers ++ [mid] }
    let st4 := Cluster.addMarkerVisibility cl2.minClusterSize cl2.markers mid st1
    let r := Cluster.updateIcon cfg cl2 st4
    (true, r.1, r.2)

/-- `Cluster.remove`: detach the icon, empty the member array, then set
`markers_ = null`.  On an already-removed cluster `markers_.length = 0`
dereferences `null` and raises a `TypeError`, modelled by `none`. -/
def Cluster.remove (cl : Cluster) : Option Cluster :=
  if cl.removed then none
  else some { cl with icon := cl.icon.remove, markers := [], removed := true }

/-- Fold a sequence of `addMarker` calls on one cluster (return values
discarded, as at the source call sites). -/
def Cluster.addAll (cfg : Cfg) (cl : Cluster) (mids : List ℕ) (st : Store) :
    Cluster × Store :=
  mids.foldl (fun acc mid =>
    let r := Cluster.addMarker cfg acc.1 mid acc.2
    (r.2.1, r.2.2)) (cl, st)

/-- The loop of `DEFAULT_SUMCALCULATOR_FUNCTION`:
`while (dv !== 0) { dv = dv / 10; index++ }`.  The division is exact
(JavaScript `/` on numbers, not integer division), so the loop is modelled
with explicit fuel; `none` means the fuel ran out with `dv` still nonzero. -/
def sumLoop (dv : ℚ) (idx : ℕ) : ℕ → Option ℕ
  | 0 => none
  | fuel + 1 => if dv = 0 then some idx else sumLoop (dv / 10) (idx + 1) fuel

/-- `MarkerClusterer.DEFAULT_SUMCALCULATOR_FUNCTION` under exact arithmetic,
with fuel for its loop: `text = markers.length`,
`index = Math.min(index, numStyles)`. -/
def DEFAULT_SUMCALCULATOR_FUNCTION (markers : List ℕ) (numStyles : ℕ) (fuel : ℕ) :
    Option Sum :=
  (sumLoop ((markers.length : ℚ)) 0 fuel).map
    (fun idx => ⟨markers.length, min idx numStyles⟩)

/-- The summary calculator the specification describes:
`index = floor(log10(memberCount)) + 1` clamped to `[0, numStyles]`,
`text = memberCount`.  (`Nat.log 10 n = floor(log10 n)` for `n ≥ 1`.) -/
def specSumCalculator (markers : List ℕ) (numStyles : ℕ) : Sum :=
  ⟨markers.length, min (Nat.log 10 markers.length + 1) numStyles⟩

/-- JavaScript `Math.atan2 y x`, as the argument of the complex number
`x + y·i` (range `(-π, π]`, matching `Math.atan2`). -/
noncomputable def atan2 (y x : ℝ) : ℝ :=
  Complex.arg (Complex.ofReal x + Complex.ofReal y * Complex.I)

/-- `distanceBetweenPoints` inside `DEFAULT_CLUSTERIZER_FUNCTION`: the
haversine great-circle distance in km with Earth radius `R = 6371`.
Real-number model of the source's double arithmetic; `Real.sqrt` of a
negative argument is `0` where JavaScript would produce `NaN`, which can
differ only for latitudes outside `[-90, 90]`. -/
noncomputable def distanceBetweenPoints (p1 p2 : LatLng) : ℝ :=
  let R : ℝ := 6371
  let dLat : ℝ := ((p2.lat : ℝ) - (p1.lat : ℝ)) * Real.pi / 180
  let dLon : ℝ := ((p2.lng : ℝ) - (p1.lng : ℝ)) * Real.pi / 180
  let a : ℝ := Real.sin (dLat / 2) * Real.sin (dLat / 2) +
    Real.cos ((p1.lat : ℝ) * Real.pi / 180) * Real.cos ((p2.lat : ℝ) * Real.pi / 180) *
      Real.sin (dLon / 2) * Real.sin (dLon / 2)
  let c : ℝ := 2 * atan2 (Real.sqrt a) (Real.sqrt (1 - a))
  R * c

/-- The `clusters.forEach` scan of `DEFAULT_CLUSTERIZER_FUNCTION`: track the
running minimum distance (initialised to `40000`, "some large number") and
the cluster achieving it; clusters without a centre are skipped.  The
accumulator also carries the list position of the tracked cluster so the
in-place mutation of `clusterToAddTo` can be modelled by `List.set`. -/
noncomputable def scanClusters (pos : LatLng) :
    List Cluster → ℕ → ℝ × Option (ℕ × Cluster) → ℝ × Option (ℕ × Cluster)
  | [], _, acc => acc
  | c :: rest, i, acc =>
    scanClusters pos rest (i + 1)
      (match c.center with
       | none => acc
       | some ctr =>
         if distanceBetweenPoints ctr pos < acc.1 then
           (distanceBetweenPoints ctr pos, some (i, c))
         else acc)

/-- `MarkerClusterer.DEFAULT_CLUSTERIZER_FUNCTION`: scan for the nearest
cluster; if one exists and the marker is inside its padded bounds, add the
marker to it, otherwise create a new cluster holding the marker and append
it to the collection. -/
noncomputable def DEFAULT_CLUSTERIZER_FUNCTION (cfg : Cfg) (mid : ℕ)
    (cs : List Cluster) (st : Store) : List Cluster × Store :=
  let pos := (st mid).pos
  let scan := scanClusters pos cs 0 (40000, none)
  match scan.2 with
  | some ic =>
    if ic.2.isMarkerInClusterBounds pos then
      let r := Cluster.addMarker cfg ic.2 mid st
      (cs.set ic.1 r.2.1, r.2.2)
    else
      let r := Cluster.addMarker cfg (Cluster.new cfg) mid st
      (cs ++ [r.2.1], r.2.2)
  | none =>
    let r := Cluster.addMarker cfg (Cluster.new cfg) mid st
    (cs ++ [r.2.1], r.2.2)

/-- The engine's mutable state: the marker collection, the cluster
collection, the `ready` flag, and the shared marker heap. -/
structure MarkerClusterer where
  markers : List ℕ
  clusters : List Cluster
  ready : Bool
  store : Store

/-- `MarkerClusterer.createClusters_`: no-op while not ready; otherwise pad
the current viewport bounds and feed every not-yet-added marker inside them
to the clusterizer (the default one, as installed by the constructor's
default argument). -/
noncomputable def MarkerClusterer.createClusters (cfg : Cfg) (s : MarkerClusterer) :
    MarkerClusterer :=
  if s.ready = false then s
  else
    let mapBounds : LatLngBounds := ⟨cfg.mapBounds.sw, cfg.mapBounds.ne⟩
    let bounds := getExtendedBounds cfg mapBounds
    let r := s.markers.foldl
      (fun (acc : List Cluster × Store) mid =>
        if (acc.2 mid).isAdded = false ∧ bounds.contains (acc.2 mid).pos = true then
          DEFAULT_CLUSTERIZER_FUNCTION cfg mid acc.1 acc.2
        else acc)
      (s.clusters, s.store)
    { s with clusters := r.1, store := r.2 }

/-- `MarkerClusterer.pushMarkerTo_`: reset the marker's `isAdded` flag and
append it to the marker collection (the drag-end listener registration is an
external event subscription with no immediate state effect). -/
def MarkerClusterer.pushMarkerTo (s : MarkerClusterer) (mid : ℕ) : MarkerClusterer :=
  { s with store := s.store.setIsAdded mid false, markers := s.markers ++ [mid] }

/-- `MarkerClusterer.addMarker`. -/
noncomputable def MarkerClusterer.addMarker (cfg : Cfg) (s : MarkerClusterer)
    (mid : ℕ) (noRedraw : Bool) : MarkerClusterer :=
  let s1 := s.pushMarkerTo mid
  if noRedraw then s1 else MarkerClusterer.createClusters cfg s1

/-- `MarkerClusterer.addMarkers`. -/
noncomputable def MarkerClusterer.addMarkers (cfg : Cfg) (s : MarkerClusterer)
    (mids : List ℕ) (noRedraw : Bool) : MarkerClusterer :=
  let s1 := mids.foldl MarkerClusterer.pushMarkerTo s
  if noRedraw then s1 else MarkerClusterer.createClusters cfg s1

/-- `MarkerClusterer.removeMarker_`: identity-based removal of the first
occurrence; detach the marker from the map; report whether it was found. -/
def MarkerClusterer.removeMarker_ (s : MarkerClusterer) (mid : ℕ) :
    Bool × MarkerClusterer :=
  if mid ∈ s.markers then
    (true, { s with store := s.store.setOnMap mid false, markers := s.markers.erase mid })
  else (false, s)

/-- `MarkerClusterer.resetViewport`: remove every cluster (their disposal
touches only the detached cluster values), clear every marker's `isAdded`
flag (optionally hiding the markers), and empty the cluster collection. -/
def MarkerClusterer.resetViewport (s : MarkerClusterer) (hideMarker : Bool) :
    MarkerClusterer :=
  { s with
    store := s.markers.foldl (fun st mid =>
      let st1 := st.setIsAdded mid false
      if hideMarker then st1.setOnMap mid false else st1) s.store,
    clusters := [] }

/-- `MarkerClusterer.removeMarker`: remove, and recompute only when the
marker was found and recomputation is not suppressed; the returned boolean
is the value of the source's `return` statements. -/
noncomputable def MarkerClusterer.removeMarker (cfg : Cfg) (s : MarkerClusterer)
    (mid : ℕ) (noRedraw : Bool) : Bool × MarkerClusterer :=
  let r := s.removeMarker_ mid
  if noRedraw = false ∧ r.1 = true then
    (true, MarkerClusterer.createClusters cfg (r.2.resetViewport false))
  else (false, r.2)

/-- `MarkerClusterer.removeMarkers`. -/
noncomputable def MarkerClusterer.removeMarkers (cfg : Cfg) (s : MarkerClusterer)
    (mids : List ℕ) (noRedraw : Bool) : MarkerClusterer :=
  let r := mids.foldl (fun (acc : Bool × MarkerClusterer) mid =>
    let r1 := MarkerClusterer.removeMarker_ acc.2 mid
    (acc.1 || r1.1, r1.2)) ((false : Bool), s)
  if noRedraw = false ∧ r.1 = true then
    MarkerClusterer.createClusters cfg (r.2.resetViewport false)
  else r.2

/-- `MarkerClusterer.repaint`: snapshot and clear the live cluster list,
reset the viewport, recompute; the deferred disposal of the snapshotted old
clusters touches only those detached values, not the engine state. -/
noncomputable def MarkerClusterer.repaint (cfg : Cfg) (s : MarkerClusterer) :
    MarkerClusterer :=
  MarkerClusterer.createClusters cfg
    (MarkerClusterer.resetViewport { s with clusters := [] } false)

/-- The engine invariant of the specification: every marker that is a member
of some cluster is also present in the engine's marker collection. -/
def clustersInMarkers (s : MarkerClusterer) : Prop :=
  ∀ c ∈ s.clusters, ∀ mid ∈ c.markers, mid ∈ s.markers

instance (s : MarkerClusterer) : Decidable (clustersInMarkers s) := by
  unfold clustersInMarkers
  infer_instance

/-- The recognized constructor options (the fields the claims exercise). -/
structure MarkerClustererOptions where
  gridSize : ℚ
  minClusterSize : ℕ
  maxZoom : Option ℤ
  zoomOnClick : Bool
  averageCenter : Bool
deriving DecidableEq

/-- `MarkerClusterer.DEFAULT_MARKERCLUSTER_OPTIONS`. -/
def DEFAULT_MARKERCLUSTER_OPTIONS : MarkerClustererOptions :=
  ⟨60, 2, none, true, true⟩

/-- JavaScript `a || b` on booleans: `false` is falsy. -/
def jsOrBool (v d : Bool) : Bool := if v then v else d

/-- JavaScript `a || b` on numbers: `0` is falsy. -/
def jsOrNum (v d : ℚ) : ℚ := if v ≠ 0 then v else d

/-- JavaScript `a || b` on natural-valued numbers: `0` is falsy. -/
def jsOrNat (v d : ℕ) : ℕ := if v ≠ 0 then v else d

/-- JavaScript `a || b` on a nullable integer: `null` and `0` are falsy. -/
def jsOrOptInt (v d : Option ℤ) : Option ℤ :=
  match v with
  | some z => if z ≠ 0 then some z else d
  | none => d

/-- The option resolution performed by the `MarkerClusterer` constructor:
`this.x = options['x'] || defaultOptions['x']` for each field. -/
def resolveOptions (o : MarkerClustererOptions) : MarkerClustererOptions :=
  ⟨jsOrNum o.gridSize DEFAULT_MARKERCLUSTER_OPTIONS.gridSize,
   jsOrNat o.minClusterSize DEFAULT_MARKERCLUSTER_OPTIONS.minClusterSize,
   jsOrOptInt o.maxZoom DEFAULT_MARKERCLUSTER_OPTIONS.maxZoom,
   jsOrBool o.zoomOnClick DEFAULT_MARKERCLUSTER_OPTIONS.zoomOnClick,
   jsOrBool o.averageCenter DEFAULT_MARKERCLUSTER_OPTIONS.averageCenter⟩

/-- Helper predicate: the max-zoom check `mz && zoom > mz` of
`Cluster.updateIcon` fires. -/
def mzActive (cfg : Cfg) : Bool :=
  match cfg.maxZoom with
  | some mz => decide (cfg.zoom > mz)
  | none => false

lemma Store.setIsAdded_pos (st : Store) (mid j : ℕ) (b : Bool) :
    ((st.setIsAdded mid b) j).pos = (st j).pos := by
  unfold Store.setIsAdded; split <;> rfl

lemma Store.setIsAdded_onMap (st : Store) (mid j : ℕ) (b : Bool) :
    ((st.setIsAdded mid b) j).onMap = (st j).onMap := by
  unfold Store.setIsAdded; split <;> rfl

lemma Store.setOnMap_pos (st : Store) (mid j : ℕ) (b : Bool) :
    ((st.setOnMap mid b) j).pos = (st j).pos := by
  unfold Store.setOnMap; split <;> rfl

lemma Store.setOnMap_self (st : Store) (mid : ℕ) (b : Bool) :
    ((st.setOnMap mid b) mid).onMap = b := by
  unfold Store.setOnMap; simp

lemma Store.setOnMap_other (st : Store) (mid j : ℕ) (b : Bool) (h : j ≠ mid) :
    (st.setOnMap mid b) j = st j := by
  unfold Store.setOnMap; simp [h]

lemma foldl_setOnMap_pos (l : List ℕ) (st : Store) (b : Bool) (j : ℕ) :
    ((l.foldl (fun s i => Store.setOnMap s i b) st) j).pos = (st j).pos := by
  induction l generalizing st with
  | nil => rfl
  | cons a t ih =>
    simp only [List.foldl_cons]
    rw [ih (st.setOnMap a b), Store.setOnMap_pos]

lemma foldl_setOnMap_notMem (l : List ℕ) (st : Store) (b : Bool) (j : ℕ) (h : j ∉ l) :
    (l.foldl (fun s i => Store.setOnMap s i b) st) j = st j := by
  induction l generalizing st with
  | nil => rfl
  | cons a t ih =>
    simp only [List.mem_cons, not_or] at h
    simp only [List.foldl_cons]
    rw [ih (st.setOnMap a b) h.2, Store.setOnMap_other _ _ _ _ h.1]

lemma foldl_setOnMap_mem (l : List ℕ) (st : Store) (b : Bool) (j : ℕ) (h : j ∈ l) :
    ((l.foldl (fun s i => Store.setOnMap s i b) st) j).onMap = b := by
  induction l generalizing st with
  | nil => cases h
  | cons a t ih =>
    simp only [List.foldl_cons]
    by_cases hj : j ∈ t
    · exact ih (st.setOnMap a b) hj
    · have hja : j = a := by
        rcases List.mem_cons.mp h with h1 | h2
        · exact h1
        · exact absurd h2 hj
      subst hja
      rw [foldl_setOnMap_notMem t (st.setOnMap j b) b j hj, Store.setOnMap_self]

lemma Cluster.updateIconRest_snd (cfg : Cfg) (cl : Cluster) (st : Store) :
    (Cluster.updateIconRest cfg cl st).2 = st := by
  unfold Cluster.updateIconRest; split <;> rfl

lemma Cluster.updateIcon_fst_shape (cfg : Cfg) (cl : Cluster) (st : Store) :
    ∃ ic, (Cluster.updateIcon cfg cl st).1 = { cl with icon := ic } := by
  unfold Cluster.updateIcon Cluster.updateIconRest
  rcases cfg.maxZoom with _ | mz <;> dsimp only
  · split
    · exact ⟨cl.icon.hide, rfl⟩
    · exact ⟨_, rfl⟩
  · split
    · exact ⟨cl.icon, rfl⟩
    · split
      · exact ⟨cl.icon.hide, rfl⟩
      · exact ⟨_, rfl⟩

lemma Cluster.updateIcon_markers (cfg : Cfg) (cl : Cluster) (st : Store) :
    (Cluster.updateIcon cfg cl st).1.markers = cl.markers := by
  obtain ⟨ic, h⟩ := Cluster.updateIcon_fst_shape cfg cl st
  rw [h]

lemma Cluster.updateIcon_center (cfg : Cfg) (cl : Cluster) (st : Store) :
    (Cluster.updateIcon cfg cl st).1.center = cl.center := by
  obtain ⟨ic, h⟩ := Cluster.updateIcon_fst_shape cfg cl st
  rw [h]

lemma Cluster.updateIcon_bounds (cfg : Cfg) (cl : Cluster) (st : Store) :
    (Cluster.updateIcon cfg cl st).1.bounds = cl.bounds := by
  obtain ⟨ic, h⟩ := Cluster.updateIcon_fst_shape cfg cl st
  rw [h]

lemma Cluster.updateIcon_minClusterSize (cfg : Cfg) (cl : Cluster) (st : Store) :
    (Cluster.updateIcon cfg cl st).1.minClusterSize = cl.minClusterSize := by
  obtain ⟨ic, h⟩ := Cluster.updateIcon_fst_shape cfg cl st
  rw [h]

lemma Cluster.updateIcon_averageCenter (cfg : Cfg) (cl : Cluster) (st : Store) :
    (Cluster.updateIcon cfg cl st).1.averageCenter = cl.averageCenter := by
  obtain ⟨ic, h⟩ := Cluster.updateIcon_fst_shape cfg cl st
  rw [h]

lemma Cluster.updateIcon_removed (cfg : Cfg) (cl : Cluster) (st : Store) :
    (Cluster.updateIcon cfg cl st).1.removed = cl.removed := by
  obtain ⟨ic, h⟩ := Cluster.updateIcon_fst_shape cfg cl st
  rw [h]

lemma Cluster.updateIcon_pos (cfg : Cfg) (cl : Cluster) (st : Store) (j : ℕ) :
    (((Cluster.updateIcon cfg cl st).2) j).pos = (st j).pos := by
  unfold Cluster.updateIcon
  rcases cfg.maxZoom with _ | mz <;> dsimp only
  · rw [Cluster.updateIconRest_snd]
  · split
    · exact foldl_setOnMap_pos _ _ _ _
    · rw [Cluster.updateIconRest_snd]

lemma Cluster.updateIcon_of_inactive (cfg : Cfg) (cl : Cluster) (st : Store)
    (h : mzActive cfg = false) :
    Cluster.updateIcon cfg cl st = Cluster.updateIconRest cfg cl st := by
  unfold Cluster.updateIcon
  unfold mzActive at h
  rcases hm : cfg.maxZoom with _ | mz
  · rfl
  · rw [hm] at h
    simp only [decide_eq_false_iff_not, not_lt] at h
    dsimp only
    rw [if_neg (by exact not_lt.mpr h)]

lemma Store.setIsAdded_other (st : Store) (mid j : ℕ) (b : Bool) (h : j ≠ mid) :
    (st.setIsAdded mid b) j = st j := by
  unfold Store.setIsAdded; simp [h]

lemma Cluster.addMarkerVisibility_pos (minSize : ℕ) (members : List ℕ) (mid j : ℕ)
    (st : Store) :
    ((Cluster.addMarkerVisibility minSize members mid st) j).pos = (st j).pos := by
  simp only [Cluster.addMarkerVisibility]
  split
  · rw [Store.setOnMap_pos]
    split
    · rw [foldl_setOnMap_pos]
      split
      · rw [Store.setOnMap_pos]
      · rfl
    · split
      · rw [Store.setOnMap_pos]
      · rfl
  · split
    · rw [foldl_setOnMap_pos]
      split
      · rw [Store.setOnMap_pos]
      · rfl
    · split
      · rw [Store.setOnMap_pos]
      · rfl

lemma Cluster.addMarkerVisibility_lt (minSize : ℕ) (members : List ℕ) (mid j : ℕ)
    (st : Store) (h : members.length < minSize) :
    ((Cluster.addMarkerVisibility minSize members mid st) j).onMap =
      if j = mid then true else (st j).onMap := by
  simp only [Cluster.addMarkerVisibility]
  rw [if_neg (by omega : ¬ minSize ≤ members.length),
      if_neg (by omega : ¬ members.length = minSize)]
  by_cases hj : j = mid
  · subst hj
    rw [if_pos rfl]
    by_cases hcond : members.length < minSize ∧ (st j).onMap = false
    · rw [if_pos hcond, Store.setOnMap_self]
    · rw [if_neg hcond]
      rcases Bool.eq_false_or_eq_true (st j).onMap with hb | hb
      · exact hb
      · exact absurd ⟨h, hb⟩ hcond
  · rw [if_neg hj]
    by_cases hcond : members.length < minSize ∧ (st mid).onMap = false
    · rw [if_pos hcond, Store.setOnMap_other _ _ _ _ hj]
    · rw [if_neg hcond]

lemma Cluster.addMarkerVisibility_eq (minSize : ℕ) (members : List ℕ) (mid j : ℕ)
    (st : Store) (h : members.length = minSize) (hm : mid ∈ members) :
    ((Cluster.addMarkerVisibility minSize members mid st) j).onMap =
      if j ∈ members then false else (st j).onMap := by
  simp only [Cluster.addMarkerVisibility]
  rw [if_pos (by omega : minSize ≤ members.length), if_pos h,
      if_neg (by omega : ¬ (members.length < minSize ∧ (st mid).onMap = false))]
  by_cases hj : j ∈ members
  · rw [if_pos hj]
    by_cases hjm : j = mid
    · subst hjm; rw [Store.setOnMap_self]
    · rw [Store.setOnMap_other _ _ _ _ hjm, foldl_setOnMap_mem _ _ _ _ hj]
  · have hjm : j ≠ mid := fun hh => hj (hh ▸ hm)
    rw [if_neg hj, Store.setOnMap_other _ _ _ _ hjm, foldl_setOnMap_notMem _ _ _ _ hj]

lemma Cluster.addMarkerVisibility_gt (minSize : ℕ) (members : List ℕ) (mid j : ℕ)
    (st : Store) (h : minSize < members.length) :
    ((Cluster.addMarkerVisibility minSize members mid st) j).onMap =
      if j = mid then false else (st j).onMap := by
  simp only [Cluster.addMarkerVisibility]
  rw [if_pos (by omega : minSize ≤ members.length),
      if_neg (by omega : ¬ members.length = minSize),
      if_neg (by omega : ¬ (members.length < minSize ∧ (st mid).onMap = false))]
  by_cases hj : j = mid
  · subst hj; rw [if_pos rfl, Store.setOnMap_self]
  · rw [if_neg hj, Store.setOnMap_other _ _ _ _ hj]

lemma Cluster.addMarker_of_mem (cfg : Cfg) (cl : Cluster) (mid : ℕ) (st : Store)
    (h : mid ∈ cl.markers) :
    Cluster.addMarker cfg cl mid st = (false, cl, st) := by
  simp [Cluster.addMarker, Cluster.isMarkerAlreadyAdded, h]

lemma Cluster.addMarker_markers (cfg : Cfg) (cl : Cluster) (mid : ℕ) (st : Store)
    (h : mid ∉ cl.markers) :
    (Cluster.addMarker cfg cl mid st).2.1.markers = cl.markers ++ [mid] := by
  rcases hc : cl.center with _ | ctr <;>
    by_cases ha : cl.averageCenter <;>
      simp [Cluster.addMarker, Cluster.isMarkerAlreadyAdded, h, hc, ha,
        Cluster.updateIcon_markers]

lemma Cluster.addMarker_fst (cfg : Cfg) (cl : Cluster) (mid : ℕ) (st : Store)
    (h : mid ∉ cl.markers) :
    (Cluster.addMarker cfg cl mid st).1 = true := by
  rcases hc : cl.center with _ | ctr <;>
    by_cases ha : cl.averageCenter <;>
      simp [Cluster.addMarker, Cluster.isMarkerAlreadyAdded, h, hc, ha]

lemma Cluster.addMarker_config (cfg : Cfg) (cl : Cluster) (mid : ℕ) (st : Store) :
    (Cluster.addMarker cfg cl mid st).2.1.minClusterSize = cl.minClusterSize ∧
    (Cluster.addMarker cfg cl mid st).2.1.averageCenter = cl.averageCenter ∧
    (Cluster.addMarker cfg cl mid st).2.1.removed = cl.removed := by
  by_cases h : mid ∈ cl.markers
  · rw [Cluster.addMarker_of_mem cfg cl mid st h]
    exact ⟨rfl, rfl, rfl⟩
  · rcases hc : cl.center with _ | ctr <;>
      by_cases ha : cl.averageCenter <;>
        simp [Cluster.addMarker, Cluster.isMarkerAlreadyAdded, h, hc, ha,
          Cluster.updateIcon_minClusterSize, Cluster.updateIcon_averageCenter,
          Cluster.updateIcon_removed]

lemma Cluster.addMarker_pos (cfg : Cfg) (cl : Cluster) (mid : ℕ) (st : Store) (j : ℕ) :
    (((Cluster.addMarker cfg cl mid st).2.2) j).pos = (st j).pos := by
  by_cases h : mid ∈ cl.markers
  · rw [Cluster.addMarker_of_mem cfg cl mid st h]
  · rcases hc : cl.center with _ | ctr <;>
      by_cases ha : cl.averageCenter <;>
        simp [Cluster.addMarker, Cluster.isMarkerAlreadyAdded, h, hc, ha,
          Cluster.updateIcon_pos, Cluster.addMarkerVisibility_pos, Store.setIsAdded_pos]

lemma Cluster.addMarker_center_none (cfg : Cfg) (cl : Cluster) (mid : ℕ) (st : Store)
    (h : mid ∉ cl.markers) (hc : cl.center = none) :
    (Cluster.addMarker cfg cl mid st).2.1.center = some (st mid).pos ∧
    (Cluster.addMarker cfg cl mid st).2.1.bounds =
      some (Cluster.calculateBounds cfg (st mid).pos) := by
  simp [Cluster.addMarker, Cluster.isMarkerAlreadyAdded, h, hc,
    Cluster.updateIcon_center, Cluster.updateIcon_bounds]

lemma Cluster.addMarker_center_avg (cfg : Cfg) (cl : Cluster) (mid : ℕ) (st : Store)
    (ctr : LatLng) (h : mid ∉ cl.markers) (hc : cl.center = some ctr)
    (ha : cl.averageCenter = true) :
    (Cluster.addMarker cfg cl mid st).2.1.center =
      some ⟨(ctr.lat * (cl.markers.length : ℚ) + (st mid).pos.lat) /
              ((cl.markers.length : ℚ) + 1),
            (ctr.lng * (cl.markers.length : ℚ) + (st mid).pos.lng) /
              ((cl.markers.length : ℚ) + 1)⟩ ∧
    (Cluster.addMarker cfg cl mid st).2.1.bounds =
      some (Cluster.calculateBounds cfg
        ⟨(ctr.lat * (cl.markers.length : ℚ) + (st mid).pos.lat) /
           ((cl.markers.length : ℚ) + 1),
         (ctr.lng * (cl.markers.length : ℚ) + (st mid).pos.lng) /
           ((cl.markers.length : ℚ) + 1)⟩) := by
  simp [Cluster.addMarker, Cluster.isMarkerAlreadyAdded, h, hc, ha,
    Cluster.updateIcon_center, Cluster.updateIcon_bounds, add_sub_cancel_right]

lemma Cluster.addMarker_center_fixed (cfg : Cfg) (cl : Cluster) (mid : ℕ) (st : Store)
    (ctr : LatLng) (h : mid ∉ cl.markers) (hc : cl.center = some ctr)
    (ha : cl.averageCenter = false) :
    (Cluster.addMarker cfg cl mid st).2.1.center = cl.center ∧
    (Cluster.addMarker cfg cl mid st).2.1.bounds = cl.bounds := by
  simp [Cluster.addMarker, Cluster.isMarkerAlreadyAdded, h, hc, ha,
    Cluster.updateIcon_center, Cluster.updateIcon_bounds]

lemma Cluster.addMarker_store_eq (cfg : Cfg) (cl : Cluster) (mid : ℕ) (st : Store)
    (h : mid ∉ cl.markers) (hmz : mzActive cfg = false) :
    (Cluster.addMarker cfg cl mid st).2.2 =
      Cluster.addMarkerVisibility cl.minClusterSize (cl.markers ++ [mid]) mid
        (st.setIsAdded mid true) := by
  rcases hc : cl.center with _ | ctr <;>
    by_cases ha : cl.averageCenter <;>
      simp [Cluster.addMarker, Cluster.isMarkerAlreadyAdded, h, hc, ha,
        Cluster.updateIcon_of_inactive _ _ _ hmz, Cluster.updateIconRest_snd]

lemma Cluster.addMarker_onMap_lt (cfg : Cfg) (cl : Cluster) (mid : ℕ) (st : Store)
    (h : mid ∉ cl.markers) (hmz : mzActive cfg = false)
    (hlen : cl.markers.length + 1 < cl.minClusterSize) (j : ℕ) :
    (((Cluster.addMarker cfg cl mid st).2.2) j).onMap =
      if j = mid then true else (st j).onMap := by
  rw [Cluster.addMarker_store_eq cfg cl mid st h hmz,
      Cluster.addMarkerVisibility_lt _ _ _ _ _ (by simpa using hlen)]
  simp [Store.setIsAdded_onMap]

lemma Cluster.addMarker_onMap_eq (cfg : Cfg) (cl : Cluster) (mid : ℕ) (st : Store)
    (h : mid ∉ cl.markers) (hmz : mzActive cfg = false)
    (hlen : cl.markers.length + 1 = cl.minClusterSize) (j : ℕ) :
    (((Cluster.addMarker cfg cl mid st).2.2) j).onMap =
      if j ∈ cl.markers ++ [mid] then false else (st j).onMap := by
  rw [Cluster.addMarker_store_eq cfg cl mid st h hmz,
      Cluster.addMarkerVisibility_eq _ _ _ _ _ (by simpa using hlen)
        (by simp : mid ∈ cl.markers ++ [mid])]
  simp [Store.setIsAdded_onMap]

lemma Cluster.addMarker_onMap_gt (cfg : Cfg) (cl : Cluster) (mid : ℕ) (st : Store)
    (h : mid ∉ cl.markers) (hmz : mzActive cfg = false)
    (hlen : cl.minClusterSize < cl.markers.length + 1) (j : ℕ) :
    (((Cluster.addMarker cfg cl mid st).2.2) j).onMap =
      if j = mid then false else (st j).onMap := by
  rw [Cluster.addMarker_store_eq cfg cl mid st h hmz,
      Cluster.addMarkerVisibility_gt _ _ _ _ _ (by simpa using hlen)]
  simp [Store.setIsAdded_onMap]

lemma Cluster.addMarker_icon_lt (cfg : Cfg) (cl : Cluster) (mid : ℕ) (st : Store)
    (h : mid ∉ cl.markers) (hmz : mzActive cfg = false)
    (hlen : cl.markers.length + 1 < cl.minClusterSize) :
    (Cluster.addMarker cfg cl mid st).2.1.icon.visible = false := by
  have hlt : (cl.markers ++ [mid]).length < cl.minClusterSize := by simpa using hlen
  rcases hc : cl.center with _ | ctr <;>
    by_cases ha : cl.averageCenter <;>
      simp [Cluster.addMarker, Cluster.isMarkerAlreadyAdded, h, hc, ha,
        Cluster.updateIcon_of_inactive _ _ _ hmz, Cluster.updateIconRest,
        List.length_append, hlen, ClusterIcon.hide]

lemma Cluster.addMarker_icon_ge (cfg : Cfg) (cl : Cluster) (mid : ℕ) (st : Store)
    (h : mid ∉ cl.markers) (hmz : mzActive cfg = false)
    (hlen : cl.minClusterSize ≤ cl.markers.length + 1) :
    (Cluster.addMarker cfg cl mid st).2.1.icon.visible = true := by
  have hlt : ¬ (cl.markers.length + 1 < cl.minClusterSize) := by omega
  rcases hc : cl.center with _ | ctr <;>
    by_cases ha : cl.averageCenter <;>
      simp [Cluster.addMarker, Cluster.isMarkerAlreadyAdded, h, hc, ha,
        Cluster.updateIcon_of_inactive _ _ _ hmz, Cluster.updateIconRest,
        List.length_append, hlt, ClusterIcon.showIcon, ClusterIcon.setSum,
        ClusterIcon.setCenter]

lemma Cluster.addAll_append (cfg : Cfg) (cl : Cluster) (l : List ℕ) (m : ℕ)
    (st : Store) :
    Cluster.addAll cfg cl (l ++ [m]) st =
      ((Cluster.addMarker cfg (Cluster.addAll cfg cl l st).1 m
          (Cluster.addAll cfg cl l st).2).2.1,
       (Cluster.addMarker cfg (Cluster.addAll cfg cl l st).1 m
          (Cluster.addAll cfg cl l st).2).2.2) := by
  simp [Cluster.addAll, List.foldl_append]

lemma Cluster.addAll_props (cfg : Cfg) (cl : Cluster) (mids : List ℕ) (st : Store)
    (hd : mids.Nodup) (hdisj : ∀ m ∈ mids, m ∉ cl.markers) :
    (Cluster.addAll cfg cl mids st).1.markers = cl.markers ++ mids ∧
    (Cluster.addAll cfg cl mids st).1.minClusterSize = cl.minClusterSize ∧
    (Cluster.addAll cfg cl mids st).1.averageCenter = cl.averageCenter ∧
    ∀ j, ((Cluster.addAll cfg cl mids st).2 j).pos = (st j).pos := by
  induction mids using List.reverseRecOn with
  | nil => exact ⟨by simp [Cluster.addAll], rfl, rfl, fun j => rfl⟩
  | append_singleton l m ih =>
    rw [List.nodup_append] at hd
    obtain ⟨hdl, _, hdisj2⟩ := hd
    have hml : m ∉ l := fun hm => hdisj2 hm (by simp)
    have hdisjl : ∀ x ∈ l, x ∉ cl.markers := fun x hx => hdisj x (by simp [hx])
    obtain ⟨ihm, ihmin, ihavg, ihpos⟩ := ih hdl hdisjl
    have hmm : m ∉ (Cluster.addAll cfg cl l st).1.markers := by
      rw [ihm]
      simp only [List.mem_append, not_or]
      exact ⟨hdisj m (by simp), hml⟩
    refine ⟨?_, ?_, ?_, ?_⟩
    · rw [Cluster.addAll_append,
        Cluster.addMarker_markers _ _ _ _ hmm, ihm, List.append_assoc]
    · rw [Cluster.addAll_append]
      rw [(Cluster.addMarker_config _ _ _ _).1, ihmin]
    · rw [Cluster.addAll_append]
      rw [(Cluster.addMarker_config _ _ _ _).2.1, ihavg]
    · intro j
      rw [Cluster.addAll_append]
      rw [Cluster.addMarker_pos, ihpos]

lemma Cluster.addAll_center_avg (cfg : Cfg) (st : Store) (mids : List ℕ)
    (hd : mids.Nodup) (hne : mids ≠ []) (ha : cfg.averageCenter = true) :
    (Cluster.addAll cfg (Cluster.new cfg) mids st).1.center =
      some ⟨(mids.map fun m => (st m).pos.lat).sum / (mids.length : ℚ),
            (mids.map fun m => (st m).pos.lng).sum / (mids.length : ℚ)⟩ := by
  induction mids using List.reverseRecOn with
  | nil => cases hne rfl
  | append_singleton l m ih =>
    rw [List.nodup_append] at hd
    obtain ⟨hdl, -, hdisj2⟩ := hd
    have hml : m ∉ l := fun hm => hdisj2 hm (by simp)
    obtain ⟨hpm, hpmin, hpavg, hppos⟩ :=
      Cluster.addAll_props cfg (Cluster.new cfg) l st hdl (by simp [Cluster.new])
    have hmm : m ∉ (Cluster.addAll cfg (Cluster.new cfg) l st).1.markers := by
      rw [hpm]; simpa [Cluster.new] using hml
    have havg2 : (Cluster.addAll cfg (Cluster.new cfg) l st).1.averageCenter = true := by
      rw [hpavg]; exact ha
    rcases eq_or_ne l [] with rfl | hnl
    · have hstep : Cluster.addAll cfg (Cluster.new cfg) [m] st =
          ((Cluster.addMarker cfg (Cluster.new cfg) m st).2.1,
           (Cluster.addMarker cfg (Cluster.new cfg) m st).2.2) := rfl
      have h1 := Cluster.addMarker_center_none cfg (Cluster.new cfg) m st
        (by simp [Cluster.new]) rfl
      show (Cluster.addAll cfg (Cluster.new cfg) [m] st).1.center = _
      rw [hstep, h1.1]
      show some ((st m).pos) = _
      simp
    · have hn0 : (l.length : ℚ) ≠ 0 := by
        have := List.length_pos.mpr hnl
        exact_mod_cast Nat.pos_iff_ne_zero.mp this
      have hcl := ih hdl hnl
      rw [Cluster.addAll_append]
      have h2 := Cluster.addMarker_center_avg cfg
        (Cluster.addAll cfg (Cluster.new cfg) l st).1 m
        (Cluster.addAll cfg (Cluster.new cfg) l st).2 _ hmm hcl havg2
      rw [h2.1, hpm, hppos]
      have hlen : ((Cluster.new cfg).markers ++ l).length = l.length := by
        simp [Cluster.new]
      rw [hlen]
      simp only [List.map_append, List.sum_append, List.map_cons, List.sum_cons,
        List.map_nil, List.sum_nil, add_zero, List.length_append, List.length_cons,
        List.length_nil, Option.some_inj, LatLng.mk.injEq]
      push_cast
      constructor
      · rw [div_mul_cancel₀ _ hn0]
      · rw [div_mul_cancel₀ _ hn0]

lemma Cluster.addAll_visibility (cfg : Cfg) (st : Store) (mids : List ℕ)
    (hd : mids.Nodup) (hmz : mzActive cfg = false) :
    (mids.length < cfg.minClusterSize →
      (∀ m ∈ mids, (((Cluster.addAll cfg (Cluster.new cfg) mids st).2) m).onMap = true) ∧
      (Cluster.addAll cfg (Cluster.new cfg) mids st).1.icon.visible = false) ∧
    (cfg.minClusterSize ≤ mids.length → mids ≠ [] →
      (∀ m ∈ mids, (((Cluster.addAll cfg (Cluster.new cfg) mids st).2) m).onMap = false) ∧
      (Cluster.addAll cfg (Cluster.new cfg) mids st).1.icon.visible = true) := by
  induction mids using List.reverseRecOn with
  | nil =>
    refine ⟨fun _ => ⟨fun m hm => absurd hm (List.not_mem_nil m), rfl⟩,
            fun _ hne => absurd rfl hne⟩
  | append_singleton l m ih =>
    rw [List.nodup_append] at hd
    obtain ⟨hdl, -, hdisj2⟩ := hd
    have hml : m ∉ l := fun hm => hdisj2 hm (by simp)
    obtain ⟨hpm, hpmin, hpavg, hppos⟩ :=
      Cluster.addAll_props cfg (Cluster.new cfg) l st hdl (by simp [Cluster.new])
    have hmm : m ∉ (Cluster.addAll cfg (Cluster.new cfg) l st).1.markers := by
      rw [hpm]; simpa [Cluster.new] using hml
    have hmlen : (Cluster.addAll cfg (Cluster.new cfg) l st).1.markers.length
        = l.length := by
      rw [hpm]; simp [Cluster.new]
    have hmmin : (Cluster.addAll cfg (Cluster.new cfg) l st).1.minClusterSize
        = cfg.minClusterSize := by
      rw [hpmin]; rfl
    obtain ⟨ih1, ih2⟩ := ih hdl
    constructor
    · intro hlt
      rw [List.length_append, List.length_cons, List.length_nil] at hlt
      obtain ⟨ihmap, _⟩ := ih1 (by omega)
      have honmap := Cluster.addMarker_onMap_lt cfg
        (Cluster.addAll cfg (Cluster.new cfg) l st).1 m
        (Cluster.addAll cfg (Cluster.new cfg) l st).2 hmm hmz
        (by rw [hmlen, hmmin]; omega)
      constructor
      · intro x hx
        rw [Cluster.addAll_append, honmap x]
        rcases List.mem_append.mp hx with hxl | hxm
        · rw [if_neg (by intro hxe; subst hxe; exact absurd hxl hml), ihmap x hxl]
        · rw [if_pos (List.mem_singleton.mp hxm)]
      · rw [Cluster.addAll_append]
        exact Cluster.addMarker_icon_lt cfg _ m _ hmm hmz (by rw [hmlen, hmmin]; omega)
    · intro hge hne
      rw [List.length_append, List.length_cons, List.length_nil] at hge
      have hicon : (Cluster.addAll cfg (Cluster.new cfg) (l ++ [m]) st).1.icon.visible
          = true := by
        rw [Cluster.addAll_append]
        exact Cluster.addMarker_icon_ge cfg _ m _ hmm hmz (by rw [hmlen, hmmin]; omega)
      refine ⟨?_, hicon⟩
      rcases Nat.lt_or_ge l.length cfg.minClusterSize with hcase | hcase
      · -- the add that reaches the minimum size exactly
        have heq : l.length + 1 = cfg.minClusterSize := by omega
        have honmap := Cluster.addMarker_onMap_eq cfg
          (Cluster.addAll cfg (Cluster.new cfg) l st).1 m
          (Cluster.addAll cfg (Cluster.new cfg) l st).2 hmm hmz
          (by rw [hmlen, hmmin]; omega)
        intro x hx
        rw [Cluster.addAll_append, honmap x, if_pos]
        rw [hpm]
        simpa [Cluster.new] using hx
      · -- already at or above the minimum size
        have hall : ∀ x ∈ l, (((Cluster.addAll cfg (Cluster.new cfg) l st).2) x).onMap
            = false := by
          rcases eq_or_ne l [] with rfl | hnl
          · intro x hx; cases hx
          · exact (ih2 hcase hnl).1
        have honmap := Cluster.addMarker_onMap_gt cfg
          (Cluster.addAll cfg (Cluster.new cfg) l st).1 m
          (Cluster.addAll cfg (Cluster.new cfg) l st).2 hmm hmz
          (by rw [hmlen, hmmin]; omega)
        intro x hx
        rw [Cluster.addAll_append, honmap x]
        rcases List.mem_append.mp hx with hxl | hxm
        · rw [if_neg (by intro hxe; subst hxe; exact absurd hxl hml), hall x hxl]
        · rw [if_pos (List.mem_singleton.mp hxm)]

lemma sumLoop_ne_zero (fuel : ℕ) :
    ∀ dv : ℚ, dv ≠ 0 → ∀ idx : ℕ, sumLoop dv idx fuel = none := by
  induction fuel with
  | zero => intro dv _ idx; rfl
  | succ n ih =>
    intro dv hdv idx
    simp only [sumLoop, if_neg hdv]
    refine ih (dv / 10) (fun hz => ?_) (idx + 1)
    rcases div_eq_zero_iff.mp hz with h0 | h0
    · exact hdv h0
    · norm_num at h0

/-- Concrete fixtures for witnesses and counterexamples: an environment with
default-like option values, a simple invertible projection and a pure
summary calculator; a heap placing marker `j` at `(j, 2·j)`. -/
def cfgW : Cfg :=
  { gridSize := 60, minClusterSize := 2, maxZoom := none, averageCenter := true,
    zoom := 3, numStyles := 5,
    sumCalculatorFunc := fun ms n => ⟨ms.length, n⟩,
    proj := fun p => ⟨p.lng, -p.lat⟩, unproj := fun q => ⟨-q.y, q.x⟩,
    mapBounds := ⟨⟨-10, -10⟩, ⟨10, 10⟩⟩ }

/-- Witness heap: marker `j` sits at `(j, 2·j)`, not added, not on the map. -/
def stW : Store := fun j => ⟨⟨(j : ℚ), 2 * (j : ℚ)⟩, false, false⟩

/-- A cluster already containing marker `0`. -/
def clW : Cluster := ⟨2, true, some ⟨0, 0⟩, [0], false, none, ClusterIcon.init⟩

/-- The witness environment with a configured max zoom exceeded by the
current zoom. -/
def cfg3 : Cfg := { cfgW with maxZoom := some 1, zoom := 2 }

/-- C5: for every cluster and every marker already a member of it, a second
`addMarker` call with the same marker returns `false` and performs no
mutation: the cluster (member count, member sequence, centre, bounds) and
the marker heap are returned unchanged. -/
theorem C5_readd_is_noop (cfg : Cfg) (cl : Cluster) (mid : ℕ) (st : Store)
    (h : mid ∈ cl.markers) :
    Cluster.addMarker cfg cl mid st = (false, cl, st) :=
  Cluster.addMarker_of_mem cfg cl mid st h

/-- Witness for C5: re-adding marker `0` to a cluster that contains it. -/
theorem C5_readd_is_noop_witness :
    Cluster.addMarker cfgW clW 0 stW = (false, clW, stW) :=
  C5_readd_is_noop cfgW clW 0 stW (by decide)

/-- C2: in average-centre mode every successful `addMarker` after the first
recomputes the centre as the incremental mean
`(oldCenter·(n−1) + markerPosition)/n` (`n` the new member count,
component-wise) and recomputes the bounds; consequently a fresh cluster fed
a sequence of distinct markers ends with its centre at the arithmetic mean
of their positions, independently of the join order. -/
theorem C2_average_center_mean (cfg : Cfg) (st : Store) :
    (∀ (cl : Cluster) (mid : ℕ) (ctr : LatLng), cl.averageCenter = true →
      cl.center = some ctr → mid ∉ cl.markers →
      (Cluster.addMarker cfg cl mid st).2.1.center =
        some ⟨(ctr.lat * (cl.markers.length : ℚ) + (st mid).pos.lat) /
                ((cl.markers.length : ℚ) + 1),
              (ctr.lng * (cl.markers.length : ℚ) + (st mid).pos.lng) /
                ((cl.markers.length : ℚ) + 1)⟩ ∧
      (Cluster.addMarker cfg cl mid st).2.1.bounds =
        some (Cluster.calculateBounds cfg
          ⟨(ctr.lat * (cl.markers.length : ℚ) + (st mid).pos.lat) /
             ((cl.markers.length : ℚ) + 1),
           (ctr.lng * (cl.markers.length : ℚ) + (st mid).pos.lng) /
             ((cl.markers.length : ℚ) + 1)⟩)) ∧
    (cfg.averageCenter = true → ∀ mids : List ℕ, mids.Nodup → mids ≠ [] →
      (Cluster.addAll cfg (Cluster.new cfg) mids st).1.center =
        some ⟨(mids.map fun m => (st m).pos.lat).sum / (mids.length : ℚ),
              (mids.map fun m => (st m).pos.lng).sum / (mids.length : ℚ)⟩) ∧
    (cfg.averageCenter = true → ∀ mids mids' : List ℕ, mids.Nodup →
      mids.Perm mids' → mids ≠ [] →
      (Cluster.addAll cfg (Cluster.new cfg) mids st).1.center =
        (Cluster.addAll cfg (Cluster.new cfg) mids' st).1.center) := by
  refine ⟨?_, ?_, ?_⟩
  · intro cl mid ctr ha hc hm
    exact Cluster.addMarker_center_avg cfg cl mid st ctr hm hc ha
  · intro ha mids hd hne
    exact Cluster.addAll_center_avg cfg st mids hd hne ha
  · intro ha mids mids' hd hp hne
    have hd' : mids'.Nodup := hp.nodup hd
    have hne' : mids' ≠ [] := by
      intro h0
      rw [h0] at hp
      exact hne hp.eq_nil
    rw [Cluster.addAll_center_avg cfg st mids hd hne ha,
        Cluster.addAll_center_avg cfg st mids' hd' hne' ha,
        (hp.map fun m => (st m).pos.lat).sum_eq,
        (hp.map fun m => (st m).pos.lng).sum_eq, hp.length_eq]

/-- Witness for C2: markers `0` at `(0,0)` and `1` at `(1,2)` joined in
either order yield the mean centre. -/
theorem C2_average_center_mean_witness :
    (Cluster.addAll cfgW (Cluster.new cfgW) [0, 1] stW).1.center =
      some ⟨(([0, 1].map fun m => (stW m).pos.lat).sum) / (([0, 1] : List ℕ).length : ℚ),
            (([0, 1].map fun m => (stW m).pos.lng).sum) / (([0, 1] : List ℕ).length : ℚ)⟩ ∧
    (Cluster.addAll cfgW (Cluster.new cfgW) [0, 1] stW).1.center =
      (Cluster.addAll cfgW (Cluster.new cfgW) [1, 0] stW).1.center :=
  ⟨(C2_average_center_mean cfgW stW).2.1 rfl [0, 1] (by decide) (by decide),
   (C2_average_center_mean cfgW stW).2.2 rfl [0, 1] [1, 0] (by decide)
     (by decide) (by decide)⟩

/-- C3 counterexample: `minSize = 2`, max zoom `1` configured, current zoom
`2`.  After the second add the claim demands both members hidden and the
aggregate icon shown; the code's icon refresh re-shows both members and
leaves the icon invisible. -/
theorem C3_counterexample :
    (((Cluster.addAll cfg3 (Cluster.new cfg3) [0, 1] stW).2) 0).onMap = true ∧
    (((Cluster.addAll cfg3 (Cluster.new cfg3) [0, 1] stW).2) 1).onMap = true ∧
    (Cluster.addAll cfg3 (Cluster.new cfg3) [0, 1] stW).1.icon.visible = false := by
  refine ⟨rfl, rfl, rfl⟩

/-- C3 amended: provided the max-zoom override is not active (no max zoom
configured, or the current zoom does not exceed it) and `minSize = k ≥ 1`:
markers added to a fresh cluster while the count stays below `k` are all
shown with the aggregate icon hidden, and once the count reaches `k` (the
`k`-th add hides all members in one step, later adds hide the new marker
immediately) all members are hidden and the cluster's aggregate icon is
shown. -/
theorem C3_threshold_amended (cfg : Cfg) (st : Store) (mids : List ℕ)
    (hd : mids.Nodup) (hmz : mzActive cfg = false) (hk : 1 ≤ cfg.minClusterSize) :
    (mids.length = cfg.minClusterSize - 1 →
      (∀ m ∈ mids, (((Cluster.addAll cfg (Cluster.new cfg) mids st).2) m).onMap = true) ∧
      (Cluster.addAll cfg (Cluster.new cfg) mids st).1.icon.visible = false) ∧
    (cfg.minClusterSize ≤ mids.length →
      (∀ m ∈ mids, (((Cluster.addAll cfg (Cluster.new cfg) mids st).2) m).onMap = false) ∧
      (Cluster.addAll cfg (Cluster.new cfg) mids st).1.icon.visible = true) := by
  obtain ⟨h1, h2⟩ := Cluster.addAll_visibility cfg st mids hd hmz
  refine ⟨fun hlen => h1 (by omega), fun hlen => ?_⟩
  have hne : mids ≠ [] := by
    intro h0
    rw [h0] at hlen
    simp only [List.length_nil] at hlen
    omega
  exact h2 hlen hne

/-- Witness for C3 (amended): one marker below the threshold of two is
shown with the icon hidden; two markers reach the threshold and are both
hidden with the icon shown. -/
theorem C3_threshold_amended_witness :
    ((((Cluster.addAll cfgW (Cluster.new cfgW) [0] stW).2) 0).onMap = true ∧
      (Cluster.addAll cfgW (Cluster.new cfgW) [0] stW).1.icon.visible = false) ∧
    ((((Cluster.addAll cfgW (Cluster.new cfgW) [0, 1] stW).2) 0).onMap = false ∧
      (Cluster.addAll cfgW (Cluster.new cfgW) [0, 1] stW).1.icon.visible = true) := by
  have h1 := (C3_threshold_amended cfgW stW [0] (by decide) rfl (by decide)).1 (by decide)
  have h2 := (C3_threshold_amended cfgW stW [0, 1] (by decide) rfl (by decide)).2 (by decide)
  exact ⟨⟨h1.1 0 (by decide), h1.2⟩, ⟨h2.1 0 (by decide), h2.2⟩⟩

/-- C4: the default summary calculator's loop divides by 10 without
truncation, so for a member count of `3` the dividend never reaches `0` and
the loop never exits with `index = floor(log10 3) + 1 = 1` — under exact
arithmetic it never exits at all (in IEEE doubles it exits only by
underflow after ≈325 iterations, clamping the style index to `numStyles`).
The calculator the specification describes returns `{text: 3, index: 1}`. -/
theorem C4_sumcalculator_code_bug :
    (∀ fuel : ℕ, DEFAULT_SUMCALCULATOR_FUNCTION [7, 8, 9] 5 fuel = none) ∧
    specSumCalculator [7, 8, 9] 5 = ⟨3, 1⟩ := by
  constructor
  · intro fuel
    have h := sumLoop_ne_zero fuel ((3 : ℕ) : ℚ) (by norm_num) 0
    simp only [DEFAULT_SUMCALCULATOR_FUNCTION, List.length_cons, List.length_nil,
      Nat.zero_add]
    rw [h]
    rfl
  · have hlog : Nat.log 10 3 = 0 := Nat.log_eq_zero_iff.mpr (Or.inl (by norm_num))
    simp [specSumCalculator, hlog]

/-- Marker heap for the C6 evidence: marker `0` at `(0,0)`, marker `1` at
`(10,10)`. -/
def st6 : Store := fun j => ⟨⟨10 * (j : ℚ), 10 * (j : ℚ)⟩, false, false⟩

/-- The options a caller passes to request fixed-centre mode. -/
def optFalse : MarkerClustererOptions := ⟨60, 2, none, true, false⟩

/-- The environment resulting from constructing with `optFalse`: the
`averageCenter` field is whatever the constructor's option resolution
produces. -/
def cfg6 : Cfg :=
  { cfgW with averageCenter := (resolveOptions optFalse).averageCenter }

/-- C6: the constructor assigns
`this.averageCenter = options['averageCenter'] || defaults['averageCenter']`
with default `true`, and `false || true = true`, so the resolved flag is
`true` for every option object — fixed-centre mode is unreachable through
the constructor.  Constructed with `averageCenter: false` and fed markers
at `(0,0)` and `(10,10)`, the cluster centre moves to `(5,5)` instead of
staying at the first member's position. -/
theorem C6_fixed_center_code_bug :
    (∀ o : MarkerClustererOptions, (resolveOptions o).averageCenter = true) ∧
    (resolveOptions optFalse).averageCenter = true ∧
    (Cluster.addAll cfg6 (Cluster.new cfg6) [0, 1] st6).1.center = some ⟨5, 5⟩ := by
  refine ⟨?_, rfl, ?_⟩
  · intro o
    rcases hb : o.averageCenter <;>
      simp [resolveOptions, jsOrBool, DEFAULT_MARKERCLUSTER_OPTIONS, hb]
  · rw [Cluster.addAll_center_avg cfg6 st6 [0, 1] (by decide) (by decide) rfl]
    norm_num [st6]

/-- A cluster at the aggregation threshold whose icon is currently shown. -/
def cl9 : Cluster := ⟨2, true, some ⟨0, 0⟩, [0, 1], false, none, ⟨true, true, none, none⟩⟩

/-- C9 counterexample: with max zoom `1` configured and zoom `2`, a refresh
of a cluster whose icon is visible re-shows the members but leaves the icon
visible — it is not suppressed as the claim states. -/
theorem C9_counterexample :
    (Cluster.updateIcon cfg3 cl9 stW).1.icon.visible = true ∧
    (((Cluster.updateIcon cfg3 cl9 stW).2) 0).onMap = true := by
  refine ⟨rfl, rfl⟩

/-- C9 amended: each refresh re-evaluates visibility as follows — with the
max-zoom override active every member is shown on the map and the cluster
(including its icon, hence its prior visibility) is left untouched; with it
inactive, below the minimum size the icon is hidden, and otherwise the
summary computed by the calculator is attached and the icon shown at the
cluster centre. -/
theorem C9_updateIcon_amended (cfg : Cfg) (cl : Cluster) (st : Store) :
    (mzActive cfg = true →
      (Cluster.updateIcon cfg cl st).1 = cl ∧
      ∀ m ∈ cl.markers, (((Cluster.updateIcon cfg cl st).2) m).onMap = true) ∧
    (mzActive cfg = false → cl.markers.length < cl.minClusterSize →
      (Cluster.updateIcon cfg cl st).1 = { cl with icon := cl.icon.hide } ∧
      (Cluster.updateIcon cfg cl st).2 = st) ∧
    (mzActive cfg = false → cl.minClusterSize ≤ cl.markers.length →
      (Cluster.updateIcon cfg cl st).1 =
        { cl with icon := ((cl.icon.setCenter cl.center).setSum
            (cfg.sumCalculatorFunc cl.markers cfg.numStyles)).showIcon } ∧
      (Cluster.updateIcon cfg cl st).2 = st) := by
  refine ⟨?_, ?_, ?_⟩
  · intro hmz
    unfold mzActive at hmz
    rcases hm : cfg.maxZoom with _ | mz
    · rw [hm] at hmz; cases hmz
    · rw [hm] at hmz
      simp only [decide_eq_true_eq] at hmz
      unfold Cluster.updateIcon
      rw [hm]
      dsimp only
      rw [if_pos hmz]
      exact ⟨rfl, fun m hm2 => foldl_setOnMap_mem _ _ _ _ hm2⟩
  · intro hmz hlt
    rw [Cluster.updateIcon_of_inactive cfg cl st hmz]
    unfold Cluster.updateIconRest
    rw [if_pos hlt]
    exact ⟨rfl, rfl⟩
  · intro hmz hge
    rw [Cluster.updateIcon_of_inactive cfg cl st hmz]
    unfold Cluster.updateIconRest
    rw [if_neg (by omega : ¬ cl.markers.length < cl.minClusterSize)]
    exact ⟨rfl, rfl⟩

/-- Witness for C9 (amended), exercising all three branches at concrete
inputs: the max-zoom branch leaves the cluster untouched; below the
threshold the icon is hidden; at the threshold the icon is shown. -/
theorem C9_updateIcon_amended_witness :
    (Cluster.updateIcon cfg3 cl9 stW).1 = cl9 ∧
    (Cluster.updateIcon cfgW clW stW).1 = { clW with icon := clW.icon.hide } ∧
    (Cluster.updateIcon cfgW cl9 stW).1 =
      { cl9 with icon := ((cl9.icon.setCenter cl9.center).setSum
          (cfgW.sumCalculatorFunc cl9.markers cfgW.numStyles)).showIcon } :=
  ⟨((C9_updateIcon_amended cfg3 cl9 stW).1 (by decide)).1,
   ((C9_updateIcon_amended cfgW clW stW).2.1 (by decide) (by decide)).1,
   ((C9_updateIcon_amended cfgW cl9 stW).2.2 (by decide) (by decide)).1⟩

/-- A live cluster whose icon is attached and visible, with two members. -/
def cl10 : Cluster := ⟨2, true, some ⟨0, 0⟩, [0, 1], false, none, ⟨true, true, none, none⟩⟩

/-- C10 counterexample: the first `remove()` succeeds; the second call does
not complete — it dereferences the nulled member array (`TypeError`),
so disposing an already-disposed cluster is not a harmless no-op. -/
theorem C10_counterexample :
    (Cluster.remove cl10).isSome = true ∧
    ((Cluster.remove cl10).bind Cluster.remove) = none := by
  refine ⟨rfl, rfl⟩

/-- C10 amended: cluster disposal is not idempotent — `remove()` nulls the
member array, so whenever a first `remove` succeeds, a second `remove` on
the result fails with a `TypeError` instead of completing without effect.
(Within `repaint` itself each snapshotted cluster is disposed only once, as
the live list is cleared before the deferred disposal runs.) -/
theorem C10_remove_not_idempotent (c c' : Cluster)
    (h : Cluster.remove c = some c') : Cluster.remove c' = none := by
  unfold Cluster.remove at h ⊢
  split at h
  · exact absurd h (by simp)
  · have hx := Option.some_inj.mp h
    rw [← hx]
    simp

/-- Witness for C10: the concrete disposed state reached from `cl10`. -/
theorem C10_remove_not_idempotent_witness :
    Cluster.remove ⟨2, true, some ⟨0, 0⟩, [], true, none, ⟨false, false, none, none⟩⟩
      = none :=
  C10_remove_not_idempotent cl10 _ (by decide)

/-- An engine state with markers `0`, `1` pushed and marker `0` clustered. -/
def eng1 : MarkerClusterer :=
  { markers := [0, 1],
    clusters := [⟨2, true, some ⟨0, 0⟩, [0], false, none, ClusterIcon.init⟩],
    ready := true, store := stW }

/-- C7: `removeMarker` with `suppressRecompute = true` performs the removal
(identity removal of the first occurrence, marker detached from the map)
but returns `false` even when the marker was found, contradicting the claim
and the method's own documentation; concretely, removing the present marker
`0` from `eng1` with the flag set removes it yet reports `false`. -/
theorem C7_removeMarker_code_bug :
    (∀ (cfg : Cfg) (s : MarkerClusterer) (mid : ℕ),
      (MarkerClusterer.removeMarker cfg s mid true).1 = false ∧
      (MarkerClusterer.removeMarker cfg s mid true).2.markers = s.markers.erase mid) ∧
    (0 ∈ eng1.markers) ∧
    (MarkerClusterer.removeMarker cfgW eng1 0 true).1 = false ∧
    (MarkerClusterer.removeMarker cfgW eng1 0 true).2.markers = [1] ∧
    (((MarkerClusterer.removeMarker cfgW eng1 0 true).2.store) 0).onMap = false := by
  refine ⟨?_, by decide, rfl, by decide, rfl⟩
  intro cfg s mid
  unfold MarkerClusterer.removeMarker
  rw [if_neg (by simp)]
  refine ⟨rfl, ?_⟩
  unfold MarkerClusterer.removeMarker_
  by_cases h : mid ∈ s.markers
  · rw [if_pos h]
  · rw [if_neg h, List.erase_of_not_mem h]

lemma scanClusters_mem (pos : LatLng) :
    ∀ (l : List Cluster) (i : ℕ) (acc : ℝ × Option (ℕ × Cluster)) (ic : ℕ × Cluster),
      (scanClusters pos l i acc).2 = some ic → acc.2 = some ic ∨ ic.2 ∈ l := by
  intro l
  induction l with
  | nil => intro i acc ic h; exact Or.inl h
  | cons c rest ih =>
    intro i acc ic h
    rw [scanClusters] at h
    rcases ih (i + 1) _ ic h with hl | hr
    · rcases hc : c.center with _ | ctr
      · rw [hc] at hl
        exact Or.inl hl
      · rw [hc] at hl
        dsimp only at hl
        split at hl
        · have hic := Option.some_inj.mp hl
          rw [← hic]
          exact Or.inr (List.mem_cons_self c rest)
        · exact Or.inl hl
    · exact Or.inr (List.mem_cons_of_mem c hr)

lemma DEFAULT_CLUSTERIZER_FUNCTION_markers (cfg : Cfg) (mid : ℕ) (cs : List Cluster)
    (st : Store) :
    ∀ c ∈ (DEFAULT_CLUSTERIZER_FUNCTION cfg mid cs st).1, ∀ x ∈ c.markers,
      (∃ c0 ∈ cs, x ∈ c0.markers) ∨ x = mid := by
  have hnew : ∀ y ∈ (Cluster.addMarker cfg (Cluster.new cfg) mid st).2.1.markers,
      y = mid := by
    intro y hy
    rw [Cluster.addMarker_markers cfg (Cluster.new cfg) mid st (by simp [Cluster.new])]
      at hy
    simpa [Cluster.new] using hy
  intro c hc x hx
  unfold DEFAULT_CLUSTERIZER_FUNCTION at hc
  dsimp only at hc
  rcases hs : (scanClusters (st mid).pos cs 0 (40000, none)).2 with _ | ic
  all_goals rw [hs] at hc; dsimp only at hc
  · rcases List.mem_append.mp hc with hcs | hone
    · exact Or.inl ⟨c, hcs, hx⟩
    · rw [List.mem_singleton.mp hone] at hx
      exact Or.inr (hnew x hx)
  · have hmem : ic.2 ∈ cs := by
      rcases scanClusters_mem (st mid).pos cs 0 (40000, none) ic hs with h0 | h1
      · cases h0
      · exact h1
    split at hc
    · rcases List.mem_or_eq_of_mem_set hc with hcs | hset
      · exact Or.inl ⟨c, hcs, hx⟩
      · rw [hset] at hx
        by_cases hm : mid ∈ ic.2.markers
        · rw [Cluster.addMarker_of_mem cfg ic.2 mid st hm] at hx
          exact Or.inl ⟨ic.2, hmem, hx⟩
        · rw [Cluster.addMarker_markers cfg ic.2 mid st hm] at hx
          rcases List.mem_append.mp hx with hx1 | hx2
          · exact Or.inl ⟨ic.2, hmem, hx1⟩
          · exact Or.inr (List.mem_singleton.mp hx2)
    · rcases List.mem_append.mp hc with hcs | hone
      · exact Or.inl ⟨c, hcs, hx⟩
      · rw [List.mem_singleton.mp hone] at hx
        exact Or.inr (hnew x hx)

lemma foldl_preserve {α β : Type} (P : β → Prop) (f : β → α → β) :
    ∀ (l : List α) (b : β), P b → (∀ x ∈ l, ∀ b2, P b2 → P (f b2 x)) →
      P (l.foldl f b) := by
  intro l
  induction l with
  | nil => exact fun b hb _ => hb
  | cons a t ih =>
    intro b hb hstep
    exact ih (f b a) (hstep a (by simp) b hb)
      (fun x hx b2 hb2 => hstep x (by simp [hx]) b2 hb2)

lemma MarkerClusterer.createClusters_inv (cfg : Cfg) (s : MarkerClusterer)
    (h : clustersInMarkers s) :
    clustersInMarkers (MarkerClusterer.createClusters cfg s) := by
  unfold MarkerClusterer.createClusters
  split
  · exact h
  · dsimp only
    have H := foldl_preserve
      (fun p : List Cluster × Store => ∀ c ∈ p.1, ∀ x ∈ c.markers, x ∈ s.markers)
      (fun (acc : List Cluster × Store) mid =>
        if (acc.2 mid).isAdded = false ∧
            (getExtendedBounds cfg ⟨cfg.mapBounds.sw, cfg.mapBounds.ne⟩).contains
              (acc.2 mid).pos = true then
          DEFAULT_CLUSTERIZER_FUNCTION cfg mid acc.1 acc.2
        else acc)
      s.markers (s.clusters, s.store) h ?_
    · exact fun c hc x hx => H c hc x hx
    · intro mid hmid b hb
      dsimp only
      split
      · intro c hc x hx
        rcases DEFAULT_CLUSTERIZER_FUNCTION_markers cfg mid b.1 b.2 c hc x hx with
          ⟨c0, hc0, hx0⟩ | hxm
        · exact hb c0 hc0 x hx0
        · rw [hxm]; exact hmid
      · exact hb

lemma MarkerClusterer.resetViewport_inv (s : MarkerClusterer) (hide : Bool) :
    clustersInMarkers (MarkerClusterer.resetViewport s hide) := by
  intro c hc
  cases hc

lemma MarkerClusterer.pushMarkerTo_inv (s : MarkerClusterer) (mid : ℕ)
    (h : clustersInMarkers s) : clustersInMarkers (s.pushMarkerTo mid) := by
  intro c hc x hx
  exact List.mem_append.mpr (Or.inl (h c hc x hx))

lemma MarkerClusterer.pushMarkerTo_foldl_inv (mids : List ℕ) :
    ∀ s : MarkerClusterer, clustersInMarkers s →
      clustersInMarkers (mids.foldl MarkerClusterer.pushMarkerTo s) := by
  induction mids with
  | nil => exact fun s h => h
  | cons a t ih =>
    intro s h
    exact ih (s.pushMarkerTo a) (MarkerClusterer.pushMarkerTo_inv s a h)

lemma MarkerClusterer.removeMarker_fold_true (mids : List ℕ) :
    ∀ acc : Bool × MarkerClusterer, acc.1 = true →
      (mids.foldl (fun (acc : Bool × MarkerClusterer) mid =>
        let r1 := MarkerClusterer.removeMarker_ acc.2 mid
        (acc.1 || r1.1, r1.2)) acc).1 = true := by
  induction mids with
  | nil => exact fun acc h => h
  | cons a t ih =>
    intro acc h
    exact ih _ (by simp [h])

lemma MarkerClusterer.removeMarker_fold_false (mids : List ℕ) :
    ∀ acc : Bool × MarkerClusterer,
      (mids.foldl (fun (acc : Bool × MarkerClusterer) mid =>
        let r1 := MarkerClusterer.removeMarker_ acc.2 mid
        (acc.1 || r1.1, r1.2)) acc).1 = false →
      (mids.foldl (fun (acc : Bool × MarkerClusterer) mid =>
        let r1 := MarkerClusterer.removeMarker_ acc.2 mid
        (acc.1 || r1.1, r1.2)) acc).2 = acc.2 := by
  induction mids with
  | nil => exact fun acc _ => rfl
  | cons a t ih =>
    intro acc hfin
    have hstep : (acc.1 || (MarkerClusterer.removeMarker_ acc.2 a).1) = false := by
      by_contra hne
      have htrue : (acc.1 || (MarkerClusterer.removeMarker_ acc.2 a).1) = true := by
        rcases Bool.eq_false_or_eq_true (acc.1 || (MarkerClusterer.removeMarker_ acc.2 a).1)
          with hb | hb
        · exact hb
        · exact absurd hb hne
      have := MarkerClusterer.removeMarker_fold_true t
        ((acc.1 || (MarkerClusterer.removeMarker_ acc.2 a).1),
          (MarkerClusterer.removeMarker_ acc.2 a).2) htrue
      rw [List.foldl_cons] at hfin
      rw [this] at hfin
      cases hfin
    have hr1 : (MarkerClusterer.removeMarker_ acc.2 a).1 = false := by
      rcases Bool.or_eq_false_iff.mp hstep with ⟨-, hb⟩
      exact hb
    have hunch : (MarkerClusterer.removeMarker_ acc.2 a).2 = acc.2 := by
      unfold MarkerClusterer.removeMarker_ at hr1 ⊢
      split at hr1
      · exact absurd hr1 (by simp)
      · rename_i hnm
        rw [if_neg hnm]
    rw [List.foldl_cons]
    rw [ih ((acc.1 || (MarkerClusterer.removeMarker_ acc.2 a).1),
      (MarkerClusterer.removeMarker_ acc.2 a).2) (by rw [← List.foldl_cons]; exact hfin)]
    exact hunch

/-- C8 amended: the invariant "every marker that is a member of some cluster
is present in the engine's marker collection" is preserved by `addMarker`
and `addMarkers` (any redraw flag), by `removeMarker` and `removeMarkers`
when recomputation is not suppressed, by `resetViewport`, `repaint` and
`createClusters_`.  (A removal with `suppressRecompute = true` can break it,
as the counterexample shows, until the next reset/recompute.) -/
theorem C8_invariant_amended (cfg : Cfg) (s : MarkerClusterer)
    (h : clustersInMarkers s) (mid : ℕ) (mids : List ℕ) (nr hide : Bool) :
    clustersInMarkers (MarkerClusterer.addMarker cfg s mid nr) ∧
    clustersInMarkers (MarkerClusterer.addMarkers cfg s mids nr) ∧
    clustersInMarkers ((MarkerClusterer.removeMarker cfg s mid false).2) ∧
    clustersInMarkers (MarkerClusterer.removeMarkers cfg s mids false) ∧
    clustersInMarkers (MarkerClusterer.resetViewport s hide) ∧
    clustersInMarkers (MarkerClusterer.repaint cfg s) ∧
    clustersInMarkers (MarkerClusterer.createClusters cfg s) := by
  refine ⟨?_, ?_, ?_, ?_, MarkerClusterer.resetViewport_inv s hide, ?_,
    MarkerClusterer.createClusters_inv cfg s h⟩
  · unfold MarkerClusterer.addMarker
    split
    · exact MarkerClusterer.pushMarkerTo_inv s mid h
    · exact MarkerClusterer.createClusters_inv cfg _
        (MarkerClusterer.pushMarkerTo_inv s mid h)
  · unfold MarkerClusterer.addMarkers
    split
    · exact MarkerClusterer.pushMarkerTo_foldl_inv mids s h
    · exact MarkerClusterer.createClusters_inv cfg _
        (MarkerClusterer.pushMarkerTo_foldl_inv mids s h)
  · unfold MarkerClusterer.removeMarker
    dsimp only
    split
    · exact MarkerClusterer.createClusters_inv cfg _
        (MarkerClusterer.resetViewport_inv _ false)
    · rename_i hcond
      have hr : (s.removeMarker_ mid).1 = false := by
        rcases Bool.eq_false_or_eq_true (s.removeMarker_ mid).1 with hb | hb
        · exact absurd ⟨rfl, hb⟩ hcond
        · exact hb
      have hunch : (s.removeMarker_ mid).2 = s := by
        unfold MarkerClusterer.removeMarker_ at hr ⊢
        split at hr
        · exact absurd hr (by simp)
        · rename_i hnm
          rw [if_neg hnm]
      dsimp only
      rw [hunch]
      exact h
  · unfold MarkerClusterer.removeMarkers
    dsimp only
    split
    · exact MarkerClusterer.createClusters_inv cfg _
        (MarkerClusterer.resetViewport_inv _ false)
    · rename_i hcond
      have hfalse : (mids.foldl (fun (acc : Bool × MarkerClusterer) mid =>
          let r1 := MarkerClusterer.removeMarker_ acc.2 mid
          (acc.1 || r1.1, r1.2)) ((false : Bool), s)).1 = false := by
        rcases Bool.eq_false_or_eq_true ((mids.foldl (fun (acc : Bool × MarkerClusterer) mid =>
          let r1 := MarkerClusterer.removeMarker_ acc.2 mid
          (acc.1 || r1.1, r1.2)) ((false : Bool), s)).1) with hb | hb
        · exact absurd ⟨rfl, hb⟩ hcond
        · exact hb
      rw [MarkerClusterer.removeMarker_fold_false mids ((false : Bool), s) hfalse]
      exact h
  · unfold MarkerClusterer.repaint
    exact MarkerClusterer.createClusters_inv cfg _
      (MarkerClusterer.resetViewport_inv _ false)

/-- Witness for C8 (amended) at a concrete invariant-satisfying state. -/
theorem C8_invariant_amended_witness :
    clustersInMarkers ((MarkerClusterer.removeMarker cfgW eng1 0 false).2) ∧
    clustersInMarkers (MarkerClusterer.resetViewport eng1 true) :=
  ⟨(C8_invariant_amended cfgW eng1 (by decide) 0 [] true true).2.2.1,
   (C8_invariant_amended cfgW eng1 (by decide) 0 [] true true).2.2.2.2.1⟩

/-- C8 counterexample: removing the clustered marker `0` with
`suppressRecompute = true` leaves it inside a live cluster while gone from
the engine's marker collection, violating the invariant after an engine
operation from the claim's list. -/
theorem C8_counterexample :
    clustersInMarkers eng1 ∧
    ¬ clustersInMarkers ((MarkerClusterer.removeMarker cfgW eng1 0 true).2) := by
  constructor
  · decide
  · intro hinv
    have := hinv ⟨2, true, some ⟨0, 0⟩, [0], false, none, ClusterIcon.init⟩
      (by decide) 0 (by decide)
    revert this
    decide

lemma atan2_le_pi_div_two (y x : ℝ) (hx : 0 ≤ x) : atan2 y x ≤ Real.pi / 2 := by
  unfold atan2
  have hre : (Complex.ofReal x + Complex.ofReal y * Complex.I).re = x := by simp
  have h := Complex.abs_arg_le_pi_div_two_iff.mpr (by rw [hre]; exact hx)
  exact le_trans (le_abs_self _) h

lemma haversine_term_lt (a : ℝ) :
    (6371 : ℝ) * (2 * atan2 (Real.sqrt a) (Real.sqrt (1 - a))) < 40000 := by
  have h1 := atan2_le_pi_div_two (Real.sqrt a) (Real.sqrt (1 - a))
    (Real.sqrt_nonneg (1 - a))
  have h4 := Real.pi_le_four
  linarith

/-- The initial running minimum `40000` strictly exceeds every value the
haversine formula can produce (`R·c ≤ 6371·π < 40000`). -/
lemma distanceBetweenPoints_lt (p q : LatLng) :
    distanceBetweenPoints p q < 40000 := by
  unfold distanceBetweenPoints
  exact haversine_term_lt _

/-- The specification of the scan result, following the spec's words: if no
cluster was tracked, every cluster lacks a centre and the minimum is still
the initial `40000`; if cluster `c` at position `i` was tracked, it is the
cluster at index `i`, it has a centre whose distance to the marker is the
final minimum, that distance is least among all centred clusters, and it is
strictly smaller than the distance of every earlier centred cluster (ties
go to the first cluster in iteration order). -/
def ScanGood (pos : LatLng) (cs : List Cluster) (r : ℝ × Option (ℕ × Cluster)) : Prop :=
  (r.2 = none → r.1 = 40000 ∧ ∀ c ∈ cs, c.center = none) ∧
  (∀ i c, r.2 = some (i, c) → cs[i]? = some c ∧ ∃ p, c.center = some p ∧
    r.1 = distanceBetweenPoints p pos ∧
    ∀ j cj q, cs[j]? = some cj → cj.center = some q →
      r.1 ≤ distanceBetweenPoints q pos ∧
      (j < i → r.1 < distanceBetweenPoints q pos))

lemma scanClusters_append (pos : LatLng) (l1 l2 : List Cluster) :
    ∀ (i : ℕ) (acc : ℝ × Option (ℕ × Cluster)),
      scanClusters pos (l1 ++ l2) i acc =
        scanClusters pos l2 (i + l1.length) (scanClusters pos l1 i acc) := by
  induction l1 with
  | nil => intro i acc; simp [scanClusters]
  | cons c rest ih =>
    intro i acc
    simp only [List.cons_append, scanClusters, List.length_cons, List.append_eq]
    rw [ih]
    have he : i + 1 + rest.length = i + (rest.length + 1) := by omega
    rw [he]

lemma scanClusters_good (pos : LatLng) (cs : List Cluster) :
    ScanGood pos cs (scanClusters pos cs 0 (40000, none)) := by
  induction cs using List.reverseRecOn with
  | nil =>
    constructor
    · exact fun _ => ⟨rfl, fun c hc => absurd hc (List.not_mem_nil c)⟩
    · intro i c h
      cases h
  | append_singleton l c ih =>
    rw [scanClusters_append pos l [c] 0 (40000, none)]
    have hlen0 : 0 + l.length = l.length := by omega
    rw [hlen0]
    obtain ⟨ihn, ihs⟩ := ih
    rcases hcc : c.center with _ | ctr
    · -- the appended cluster has no centre, the scan state is unchanged
      have hstep : scanClusters pos [c] l.length
          (scanClusters pos l 0 (40000, none)) =
          scanClusters pos l 0 (40000, none) := by
        simp only [scanClusters, hcc]
      rw [hstep]
      constructor
      · intro h2
        obtain ⟨h40, hall⟩ := ihn h2
        refine ⟨h40, fun x hx => ?_⟩
        rcases List.mem_append.mp hx with hxl | hxc
        · exact hall x hxl
        · rw [List.mem_singleton.mp hxc]; exact hcc
      · intro i b h2
        obtain ⟨hib, p, hp, hr1, hmin⟩ := ihs i b h2
        have hilt : i < l.length := (List.getElem?_eq_some.mp hib).1
        refine ⟨by rw [List.getElem?_append_left hilt]; exact hib, p, hp, hr1, ?_⟩
        intro j cj q hj hq
        rcases Nat.lt_trichotomy j l.length with hjl | hje | hjg
        · rw [List.getElem?_append_left hjl] at hj
          exact hmin j cj q hj hq
        · subst hje
          rw [List.getElem?_concat_length] at hj
          obtain rfl : c = cj := Option.some_inj.mp hj
          rw [hcc] at hq
          cases hq
        · have hnone : (l ++ [c])[j]? = none :=
            List.getElem?_eq_none (by simp only [List.length_append,
              List.length_cons, List.length_nil]; omega)
          rw [hnone] at hj
          cases hj
    · have hstep : scanClusters pos [c] l.length
          (scanClusters pos l 0 (40000, none)) =
          if distanceBetweenPoints ctr pos <
              (scanClusters pos l 0 (40000, none)).1 then
            (distanceBetweenPoints ctr pos, some (l.length, c))
          else scanClusters pos l 0 (40000, none) := by
        simp only [scanClusters, hcc]
      rw [hstep]
      by_cases hlt : distanceBetweenPoints ctr pos <
          (scanClusters pos l 0 (40000, none)).1
      · rw [if_pos hlt]
        constructor
        · intro h2
          cases h2
        · intro i b h2
          have hpair : (l.length, c) = (i, b) := Option.some_inj.mp h2
          have hi : l.length = i := congrArg Prod.fst hpair
          have hbb : c = b := congrArg Prod.snd hpair
          subst hi
          subst hbb
          refine ⟨List.getElem?_concat_length l c, ctr, hcc, rfl, ?_⟩
          intro j cj q hj hq
          rcases Nat.lt_trichotomy j l.length with hjl | hje | hjg
          · rw [List.getElem?_append_left hjl] at hj
            have hq_ge : (scanClusters pos l 0 (40000, none)).1 ≤
                distanceBetweenPoints q pos := by
              rcases hrn : (scanClusters pos l 0 (40000, none)).2 with _ | ib0
              · obtain ⟨h40, hall⟩ := ihn hrn
                rw [hall cj (List.getElem?_mem hj)] at hq
                cases hq
              · obtain ⟨-, p0, hp0, hr10, hmin0⟩ :=
                  ihs ib0.1 ib0.2 (by rw [hrn])
                exact (hmin0 j cj q hj hq).1
            exact ⟨le_of_lt (lt_of_lt_of_le hlt hq_ge),
              fun _ => lt_of_lt_of_le hlt hq_ge⟩
          · subst hje
            rw [List.getElem?_concat_length] at hj
            obtain rfl : c = cj := Option.some_inj.mp hj
            have hqc : q = ctr := by
              rw [hcc] at hq
              exact (Option.some_inj.mp hq).symm
            subst hqc
            exact ⟨le_refl _, fun hji => absurd hji (by omega)⟩
          · have hnone : (l ++ [c])[j]? = none :=
              List.getElem?_eq_none (by simp only [List.length_append,
                List.length_cons, List.length_nil]; omega)
            rw [hnone] at hj
            cases hj
      · rw [if_neg hlt]
        constructor
        · intro h2
          obtain ⟨h40, -⟩ := ihn h2
          refine absurd ?_ hlt
          rw [h40]
          exact distanceBetweenPoints_lt ctr pos
        · intro i b h2
          obtain ⟨hib, p, hp, hr1, hmin⟩ := ihs i b h2
          have hilt : i < l.length := (List.getElem?_eq_some.mp hib).1
          refine ⟨by rw [List.getElem?_append_left hilt]; exact hib, p, hp, hr1, ?_⟩
          intro j cj q hj hq
          rcases Nat.lt_trichotomy j l.length with hjl | hje | hjg
          · rw [List.getElem?_append_left hjl] at hj
            exact hmin j cj q hj hq
          · subst hje
            rw [List.getElem?_concat_length] at hj
            obtain rfl : c = cj := Option.some_inj.mp hj
            have hqc : q = ctr := by
              rw [hcc] at hq
              exact (Option.some_inj.mp hq).symm
            subst hqc
            exact ⟨not_lt.mp hlt, fun hji => absurd hji (by omega)⟩
          · have hnone : (l ++ [c])[j]? = none :=
              List.getElem?_eq_none (by simp only [List.length_append,
                List.length_cons, List.length_nil]; omega)
            rw [hnone] at hj
            cases hj

/-- C1: the default assignment strategy scans all clusters tracking the
minimum haversine distance (Earth radius 6371 km) from the marker's
position, with the running minimum started at `40000` — strictly larger
than any value the distance function produces — and ties resolved in favour
of the first cluster in iteration order; if a tracked nearest cluster
exists and the marker lies inside its padded bounds, the marker is added to
that cluster in place, otherwise a fresh cluster containing the marker is
appended to the collection; in every case the marker ends up a member of
some cluster of the result. -/
theorem C1_default_clusterizer (cfg : Cfg) (mid : ℕ) (cs : List Cluster) (st : Store) :
    (∀ p q : LatLng, distanceBetweenPoints p q < 40000) ∧
    ScanGood (st mid).pos cs (scanClusters (st mid).pos cs 0 (40000, none)) ∧
    (∀ i b, (scanClusters (st mid).pos cs 0 (40000, none)).2 = some (i, b) →
      (b.isMarkerInClusterBounds (st mid).pos = true →
        DEFAULT_CLUSTERIZER_FUNCTION cfg mid cs st =
          (cs.set i (Cluster.addMarker cfg b mid st).2.1,
           (Cluster.addMarker cfg b mid st).2.2)) ∧
      (b.isMarkerInClusterBounds (st mid).pos = false →
        DEFAULT_CLUSTERIZER_FUNCTION cfg mid cs st =
          (cs ++ [(Cluster.addMarker cfg (Cluster.new cfg) mid st).2.1],
           (Cluster.addMarker cfg (Cluster.new cfg) mid st).2.2))) ∧
    ((scanClusters (st mid).pos cs 0 (40000, none)).2 = none →
      DEFAULT_CLUSTERIZER_FUNCTION cfg mid cs st =
        (cs ++ [(Cluster.addMarker cfg (Cluster.new cfg) mid st).2.1],
         (Cluster.addMarker cfg (Cluster.new cfg) mid st).2.2)) ∧
    (∃ c ∈ (DEFAULT_CLUSTERIZER_FUNCTION cfg mid cs st).1, mid ∈ c.markers) := by
  have hnone : (scanClusters (st mid).pos cs 0 (40000, none)).2 = none →
      DEFAULT_CLUSTERIZER_FUNCTION cfg mid cs st =
        (cs ++ [(Cluster.addMarker cfg (Cluster.new cfg) mid st).2.1],
         (Cluster.addMarker cfg (Cluster.new cfg) mid st).2.2) := by
    intro hs
    unfold DEFAULT_CLUSTERIZER_FUNCTION
    dsimp only
    rw [hs]
  have hsome : ∀ i b,
      (scanClusters (st mid).pos cs 0 (40000, none)).2 = some (i, b) →
      (b.isMarkerInClusterBounds (st mid).pos = true →
        DEFAULT_CLUSTERIZER_FUNCTION cfg mid cs st =
          (cs.set i (Cluster.addMarker cfg b mid st).2.1,
           (Cluster.addMarker cfg b mid st).2.2)) ∧
      (b.isMarkerInClusterBounds (st mid).pos = false →
        DEFAULT_CLUSTERIZER_FUNCTION cfg mid cs st =
          (cs ++ [(Cluster.addMarker cfg (Cluster.new cfg) mid st).2.1],
           (Cluster.addMarker cfg (Cluster.new cfg) mid st).2.2)) := by
    intro i b hs
    constructor
    · intro hin
      unfold DEFAULT_CLUSTERIZER_FUNCTION
      dsimp only
      rw [hs]
      dsimp only
      rw [if_pos hin]
    · intro hin
      unfold DEFAULT_CLUSTERIZER_FUNCTION
      dsimp only
      rw [hs]
      dsimp only
      rw [if_neg (by simp [hin])]
  refine ⟨fun p q => distanceBetweenPoints_lt p q, scanClusters_good _ cs,
    hsome, hnone, ?_⟩
  rcases hs : (scanClusters (st mid).pos cs 0 (40000, none)).2 with _ | ic
  · rw [hnone hs]
    refine ⟨(Cluster.addMarker cfg (Cluster.new cfg) mid st).2.1, by simp, ?_⟩
    rw [Cluster.addMarker_markers cfg (Cluster.new cfg) mid st (by simp [Cluster.new])]
    simp [Cluster.new]
  · have hb := (scanClusters_good (st mid).pos cs).2 ic.1 ic.2 (by rw [hs])
    have hilt : ic.1 < cs.length := (List.getElem?_eq_some.mp hb.1).1
    cases hinb : ic.2.isMarkerInClusterBounds (st mid).pos
    · rw [(hsome ic.1 ic.2 (by rw [hs])).2 hinb]
      refine ⟨(Cluster.addMarker cfg (Cluster.new cfg) mid st).2.1, by simp, ?_⟩
      rw [Cluster.addMarker_markers cfg (Cluster.new cfg) mid st (by simp [Cluster.new])]
      simp [Cluster.new]
    · rw [(hsome ic.1 ic.2 (by rw [hs])).1 hinb]
      by_cases hm : mid ∈ ic.2.markers
      · rw [Cluster.addMarker_of_mem cfg ic.2 mid st hm]
        exact ⟨ic.2, List.getElem?_mem (List.getElem?_set_self hilt), hm⟩
      · refine ⟨(Cluster.addMarker cfg ic.2 mid st).2.1,
          List.getElem?_mem (List.getElem?_set_self hilt), ?_⟩
        rw [Cluster.addMarker_markers cfg ic.2 mid st hm]
        simp

/-- Witness for C1 at the empty cluster list: the scan finds nothing, a new
cluster is appended, and the marker is a member of it. -/
theorem C1_default_clusterizer_witness :
    DEFAULT_CLUSTERIZER_FUNCTION cfgW 0 [] stW =
      ([] ++ [(Cluster.addMarker cfgW (Cluster.new cfgW) 0 stW).2.1],
       (Cluster.addMarker cfgW (Cluster.new cfgW) 0 stW).2.2) ∧
    ∃ c ∈ (DEFAULT_CLUSTERIZER_FUNCTION cfgW 0 [] stW).1, 0 ∈ c.markers :=
  ⟨(C1_default_clusterizer cfgW 0 [] stW).2.2.2.1 rfl,
   (C1_default_clusterizer cfgW 0 [] stW).2.2.2.2⟩

end MC
